import Mathlib

/-!
Verification of the epro-memory core (embedded vector store, deduplication
decision engine, extraction orchestrator, decay scorer) against its
natural-language specification.

The TypeScript source is shallowly embedded: the LanceDB table is a list of
rows, asynchronous store operations become explicit state-passing functions
(an `Except` result models a thrown error), the write lock's guarantee is
modelled as sequential application of the serialized critical sections, and
the external LLM / embedding capabilities become explicit inputs.
-/

namespace EproMemory

/-- Memory categories: the closed six-tag set from `types.ts`
(`MEMORY_CATEGORIES`). -/
inductive MemoryCategory where
  | profile
  | preferences
  | entities
  | events
  | cases
  | patterns
deriving DecidableEq, Repr

/-- Categories that always merge, skipping dedup (`ALWAYS_MERGE_CATEGORIES`
in `types.ts`). -/
def alwaysMergeCategory : MemoryCategory → Bool
  | .profile => true
  | _ => false

/-- Categories supporting the MERGE decision from LLM dedup
(`MERGE_SUPPORTED_CATEGORIES` in `types.ts`). -/
def mergeSupportedCategory : MemoryCategory → Bool
  | .preferences => true
  | .entities => true
  | .patterns => true
  | _ => false

/-- A row of the `agent_memories` table (`AgentMemoryRow` in `types.ts`).
Numbers are modelled as `Rat` for vector components and `Nat` for the
millisecond timestamps and the activation counter. -/
structure AgentMemoryRow where
  id : String
  category : MemoryCategory
  abstract : String
  overview : String
  content : String
  vector : List Rat
  source_session : String
  active_count : Nat
  created_at : Nat
  updated_at : Nat
deriving DecidableEq, Repr

/-- Membership in the hexadecimal alphabet accepted by the UUID regex in
`db.ts` (case-insensitive: `[0-9a-f]` with the `i` flag). -/
def isHexDigit (c : Char) : Bool :=
  ('0' ≤ c && c ≤ '9') || ('a' ≤ c && c ≤ 'f') || ('A' ≤ c && c ≤ 'F')

/-- The UUID shape test from `db.ts` (`UUID_RE`): 36 characters, hyphens at
positions 8, 13, 18 and 23, hex digits elsewhere. -/
def isUuid (s : String) : Bool :=
  let cs := s.data
  cs.length = 36 &&
    (List.range 36).all fun i =>
      if i = 8 ∨ i = 13 ∨ i = 18 ∨ i = 23 then cs.getD i ' ' = '-'
      else isHexDigit (cs.getD i ' ')

/-- Looks up the first row with the given id: the embedding of
`table.query().where(id = '...').limit(1)` in `db.ts`. -/
def findRow (table : List AgentMemoryRow) (id : String) : Option AgentMemoryRow :=
  table.find? fun r => r.id = id

/-- The `Partial<AgentMemoryRow>` argument of `MemoryDB.update`: each field
is optionally supplied. -/
structure PartialFields where
  id : Option String := none
  category : Option MemoryCategory := none
  abstract : Option String := none
  overview : Option String := none
  content : Option String := none
  vector : Option (List Rat) := none
  source_session : Option String := none
  active_count : Option Nat := none
  created_at : Option Nat := none
  updated_at : Option Nat := none
deriving Repr

/-- The critical section of `MemoryDB.update` (run under the write lock):
read the row, strip `id`, `created_at`, `source_session` from the supplied
fields, spread the remaining fields over the clean row, force
`updated_at = Date.now()`, then delete-and-re-add the row. A missing id is
a no-op. -/
def updateStep (table : List AgentMemoryRow) (id : String) (fields : PartialFields)
    (now : Nat) : List AgentMemoryRow :=
  match findRow table id with
  | none => table
  | some clean =>
    let updated : AgentMemoryRow :=
      { id := clean.id
        category := fields.category.getD clean.category
        abstract := fields.abstract.getD clean.abstract
        overview := fields.overview.getD clean.overview
        content := fields.content.getD clean.content
        vector := fields.vector.getD clean.vector
        source_session := clean.source_session
        active_count := fields.active_count.getD clean.active_count
        created_at := clean.created_at
        updated_at := now }
    (table.filter fun r => ¬ r.id = id) ++ [updated]

/-- The embedding of `MemoryDB.update`: id validation (`assertUuid`) before
the locked critical section; a thrown validation error is an `Except.error`. -/
def dbUpdate (table : List AgentMemoryRow) (id : String) (fields : PartialFields)
    (now : Nat) : Except String (List AgentMemoryRow) :=
  if isUuid id then .ok (updateStep table id fields now)
  else .error ("Invalid UUID: " ++ id)

/-- The critical section of `MemoryDB.incrementActiveCount` (run under the
write lock): read the row, bump `active_count` by one and `updated_at` to
now, delete-and-re-add. A missing id is a no-op. -/
def incrementStep (table : List AgentMemoryRow) (id : String) (now : Nat) :
    List AgentMemoryRow :=
  match findRow table id with
  | none => table
  | some clean =>
    (table.filter fun r => ¬ r.id = id) ++
      [{ clean with active_count := clean.active_count + 1, updated_at := now }]

/-- The embedding of `MemoryDB.incrementActiveCount`: id validation then the
locked critical section. -/
def incrementActiveCount (table : List AgentMemoryRow) (id : String) (now : Nat) :
    Except String (List AgentMemoryRow) :=
  if isUuid id then .ok (incrementStep table id now)
  else .error ("Invalid UUID: " ++ id)

/-- N `incrementActiveCount` calls serialized by the FIFO write lock of
`MemoryDB.withWriteLock`: the lock chains each critical section after the
previous one completes, so the concurrent calls are modelled as sequential
application (`nows` gives the timestamp observed by each call). -/
def serializedIncrements (n : Nat) (nows : Nat → Nat) (table : List AgentMemoryRow)
    (id : String) : Except String (List AgentMemoryRow) :=
  match n with
  | 0 => .ok table
  | k + 1 => (incrementActiveCount table id (nows k)).bind fun t =>
      serializedIncrements k nows t id

/-- The argument type of `MemoryDB.store`: a row minus the fields the store
assigns (`id`, `created_at`, `updated_at`, `active_count`). -/
structure StoreEntry where
  category : MemoryCategory
  abstract : String
  overview : String
  content : String
  vector : List Rat
  source_session : String
deriving Repr

/-- The embedding of `MemoryDB.store`: validate the vector dimension (throw
the dimension-mismatch error otherwise, persisting nothing), then append a
row with a fresh id (`randomUUID`, modelled as the `newId` input),
`active_count = 0` and `created_at = updated_at = now`, returning the full
row. -/
def dbStore (dim : Nat) (table : List AgentMemoryRow) (entry : StoreEntry)
    (newId : String) (now : Nat) :
    Except String (List AgentMemoryRow × AgentMemoryRow) :=
  if entry.vector.length ≠ dim then
    .error ("epro-memory: vector dimension mismatch — got " ++
      toString entry.vector.length ++ "-dim vector but DB expects " ++ toString dim)
  else
    let row : AgentMemoryRow :=
      { id := newId
        category := entry.category
        abstract := entry.abstract
        overview := entry.overview
        content := entry.content
        vector := entry.vector
        source_session := entry.source_session
        active_count := 0
        created_at := now
        updated_at := now }
    .ok (table ++ [row], row)

/-- The embedding of `MemoryDB.getById`: id validation, then first-match
lookup (`none` models the `null` not-found result). -/
def getById (table : List AgentMemoryRow) (id : String) :
    Except String (Option AgentMemoryRow) :=
  if isUuid id then .ok (findRow table id)
  else .error ("Invalid UUID: " ++ id)

/-- The embedding of `MemoryDB.findByCategory`: category-filtered scan capped
at 100 rows. -/
def findByCategory (table : List AgentMemoryRow) (category : MemoryCategory) :
    List AgentMemoryRow :=
  (table.filter fun r => r.category = category).take 100

/-- One hit of `MemoryDB.search` (`MemorySearchResult` in `db.ts`). -/
structure MemorySearchResult where
  entry : AgentMemoryRow
  score : Rat
deriving DecidableEq, Repr

/-- Truthiness of a possibly-absent JavaScript string: `undefined` and the
empty string are falsy. -/
def optTruthy (o : Option String) : Bool :=
  ¬ o.getD "" = ""

/-- The shape of the parsed dedup arbitration response in
`MemoryDeduplicator.llmDecision`: `decision` and `reason` may be absent;
`match_index` is absent (`none`), present but not a number (`some none`),
or a JavaScript number (`some (some i)`), modelled as a rational so that
fractional values are representable. (`NaN`, which `typeof` also calls a
number, fails the code's `idx >= 1` check and so behaves exactly like the
out-of-range fallback; it is not separately modelled.) -/
structure DedupLlmData where
  decision : Option String := none
  reason : Option String := none
  match_index : Option (Option Rat) := none

/-- Outcome of the arbitration capability call
(`this.llm.completeJson(prompt)` in the deduplicator): the call threw, or it
returned (`none` models the `null` result for an unparseable completion). -/
inductive LlmOutcome where
  | threw (err : String)
  | returned (data : Option DedupLlmData)

/-- A `DedupResult` from `types.ts`. The decision is the (lowercased) string
the code manipulates; `matchId` is present only for merge. -/
structure DedupResult where
  decision : String
  reason : String
  matchId : Option String := none
deriving DecidableEq, Repr

/-- The model of `String.prototype.toLowerCase` as used on the arbitration
decision string: character-wise lowercasing (ASCII range suffices for the
decision tokens). -/
def jsToLowerCase (s : String) : String :=
  String.mk (s.data.map Char.toLower)

/-- JavaScript array indexing `l[x]` for a numeric index `x`: an element
only when `x` is a whole number within bounds; a fractional or negative
index yields `undefined` (`none`), as does an index past the end. -/
def jsIndex (l : List MemorySearchResult) (x : Rat) :
    Option MemorySearchResult :=
  if x.den = 1 ∧ 0 ≤ x.num then l[x.num.toNat]? else none

/-- The merge-target resolution of `MemoryDeduplicator.llmDecision`: when
`match_index` is a number passing the range check `1 <= idx <= length`,
index the top-similar list at `idx - 1` with JavaScript semantics (a
fractional in-range index therefore yields `undefined`); otherwise fall
back to the first (best-scoring) hit. -/
def resolveMatchEntry (topSimilar : List MemorySearchResult)
    (mi : Option (Option Rat)) : Option MemorySearchResult :=
  match mi with
  | some (some i) =>
    if 1 ≤ i ∧ i ≤ (topSimilar.length : Rat) then jsIndex topSimilar (i - 1)
    else topSimilar[0]?
  | _ => topSimilar[0]?

/-- The embedding of `MemoryDeduplicator.llmDecision`: take the top 3 hits,
consult the arbitration capability (the prompt only feeds that capability,
whose outcome is the explicit `outcome` input), default to create on a
thrown call, an unparseable response, or an unknown decision; resolve the
merge target from the 1-based `match_index`, falling back to the first hit
when it is absent, not a number, or out of range. -/
def llmDecision (similar : List MemorySearchResult) (outcome : LlmOutcome) :
    DedupResult :=
  let topSimilar := similar.take 3
  match outcome with
  | .threw err => { decision := "create", reason := "LLM failed: " ++ err }
  | .returned none => { decision := "create", reason := "LLM response unparseable" }
  | .returned (some data) =>
    let decision := (data.decision.map jsToLowerCase).getD "create"
    if ¬ (decision = "create" ∨ decision = "merge" ∨ decision = "skip") then
      { decision := "create"
        reason := "Unknown decision: " ++ data.decision.getD "undefined" }
    else
      let matchEntry := resolveMatchEntry topSimilar data.match_index
      { decision := decision
        reason := data.reason.getD ""
        matchId := if decision = "merge" then matchEntry.map (·.entry.id) else none }

/-- The embedding of `MemoryDeduplicator.deduplicate`. Stage 1 is the
category-restricted vector search at threshold 0.7 (cap 5) against the
external store; its hit list is the explicit `similar` input. Zero hits
short-circuit to create; otherwise stage 2 consults the arbitration
capability. The returned flag records whether the arbitration capability
was invoked. -/
def deduplicate (similar : List MemorySearchResult) (outcome : LlmOutcome) :
    DedupResult × Bool :=
  if similar.length = 0 then
    ({ decision := "create", reason := "No similar memories found" }, false)
  else
    (llmDecision similar outcome, true)

/-- A candidate memory extracted from conversation (`CandidateMemory` in
`types.ts`). -/
structure CandidateMemory where
  category : MemoryCategory
  abstract : String
  overview : String
  content : String
deriving Repr

/-- The three content tiers handled by `MemoryExtractor.mergeMemory`. -/
structure MergeTiers where
  abstract : String
  overview : String
  content : String
deriving DecidableEq, Repr

/-- The shape of the parsed merge arbitration response in
`MemoryExtractor.mergeMemory`: each tier may be absent. -/
structure MergeLlmData where
  abstract : Option String := none
  overview : Option String := none
  content : Option String := none

/-- The embedding of `MemoryExtractor.mergeMemory`: submit existing and
candidate tiers to the merge arbitration capability (outcome modelled by
`data`; `none` is an unparseable completion); keep its output when its
`abstract` and `content` are truthy, fall back to the candidate's own tiers
otherwise. -/
def mergeMemory (existing : MergeTiers) (candidate : CandidateMemory)
    (data : Option MergeLlmData) : MergeTiers :=
  match existing, data with
  | _, some d =>
    if optTruthy d.abstract && optTruthy d.content then
      { abstract := d.abstract.getD ""
        overview := if optTruthy d.overview then d.overview.getD ""
                    else candidate.overview
        content := d.content.getD "" }
    else
      { abstract := candidate.abstract
        overview := candidate.overview
        content := candidate.content }
  | _, none =>
    { abstract := candidate.abstract
      overview := candidate.overview
      content := candidate.content }

/-- The capability environment of one `MemoryExtractor.processCandidate`
call: the configured dimension, the deterministic embedding capability, the
deduplicator outcome as a function of the embedded vector, the merge
arbitration outcome, and the fresh id / timestamp drawn during the call. -/
structure ProcParams where
  dim : Nat
  embed : String → List Rat
  dedup : List Rat → DedupResult
  mergeLlm : Option MergeLlmData
  newId : String
  now : Nat

/-- Batch statistics (`ExtractionStats` in `types.ts`). -/
structure ExtractionStats where
  created : Nat
  merged : Nat
  skipped : Nat
deriving DecidableEq, Repr

/-- The embedding of `MemoryExtractor.handleProfileMerge`: look up existing
profile records; store the candidate as new when none exist, otherwise
merge into the first one (re-embedding the merged abstract and content, then
updating that record's tiers and vector). -/
def handleProfileMerge (p : ProcParams) (table : List AgentMemoryRow)
    (candidate : CandidateMemory) (sessionKey : String) :
    Except String (List AgentMemoryRow) :=
  match findByCategory table .profile with
  | [] =>
    let vector := p.embed (candidate.abstract ++ " " ++ candidate.content)
    (dbStore p.dim table
      { category := .profile
        abstract := candidate.abstract
        overview := candidate.overview
        content := candidate.content
        vector := vector
        source_session := sessionKey } p.newId p.now).map (·.1)
  | target :: _ =>
    let merged := mergeMemory
      { abstract := target.abstract, overview := target.overview,
        content := target.content } candidate p.mergeLlm
    let mergedVector := p.embed (merged.abstract ++ " " ++ merged.content)
    dbUpdate table target.id
      { abstract := some merged.abstract
        overview := some merged.overview
        content := some merged.content
        vector := some mergedVector } p.now

/-- The embedding of `MemoryExtractor.handleMerge`: fetch the merge target
by id; silently return when it is not found; otherwise merge tiers,
re-embed, and update the target record. -/
def handleMerge (p : ProcParams) (table : List AgentMemoryRow)
    (candidate : CandidateMemory) (matchId : String) :
    Except String (List AgentMemoryRow) :=
  (getById table matchId).bind fun target =>
    match target with
    | none => .ok table
    | some tgt =>
      let merged := mergeMemory
        { abstract := tgt.abstract, overview := tgt.overview,
          content := tgt.content } candidate p.mergeLlm
      let mergedVector := p.embed (merged.abstract ++ " " ++ merged.content)
      dbUpdate table matchId
        { abstract := some merged.abstract
          overview := some merged.overview
          content := some merged.content
          vector := some mergedVector } p.now

/-- The embedding of `MemoryExtractor.processCandidate`: the always-merge
(profile) path bypasses the Decision Engine and counts as merged; other
categories embed the candidate and consult the deduplicator, then create,
merge (only merge-supported categories with a truthy `matchId`), or skip.
The returned flag records whether the deduplicator was invoked. -/
def processCandidate (p : ProcParams) (table : List AgentMemoryRow)
    (candidate : CandidateMemory) (sessionKey : String)
    (stats : ExtractionStats) :
    Except String (List AgentMemoryRow × ExtractionStats × Bool) :=
  if alwaysMergeCategory candidate.category then
    (handleProfileMerge p table candidate sessionKey).map fun t =>
      (t, { stats with merged := stats.merged + 1 }, false)
  else
    let vector := p.embed (candidate.abstract ++ " " ++ candidate.content)
    let result := p.dedup vector
    if result.decision = "create" then
      (dbStore p.dim table
        { category := candidate.category
          abstract := candidate.abstract
          overview := candidate.overview
          content := candidate.content
          vector := vector
          source_session := sessionKey } p.newId p.now).map fun pr =>
        (pr.1, { stats with created := stats.created + 1 }, true)
    else if result.decision = "merge" then
      if mergeSupportedCategory candidate.category && optTruthy result.matchId then
        (handleMerge p table candidate (result.matchId.getD "")).map fun t =>
          (t, { stats with merged := stats.merged + 1 }, true)
      else
        .ok (table, { stats with skipped := stats.skipped + 1 }, true)
    else
      .ok (table, { stats with skipped := stats.skipped + 1 }, true)

/-- A parsed JSON value, the result type of `JSON.parse` as used by
`parseJsonFromResponse` in `llm.ts`. Numbers keep their lexeme. -/
inductive Json where
  | null
  | bool (b : Bool)
  | num (lexeme : String)
  | str (s : String)
  | arr (elems : List Json)
  | obj (members : List (String × Json))

/-- The left-brace character (0x7b), kept out of literals. -/
def lbrace : Char := Char.ofNat 123

/-- The right-brace character (0x7d), kept out of literals. -/
def rbrace : Char := Char.ofNat 125

/-- Whitespace accepted by `JSON.parse`: space, tab, line feed, carriage
return. -/
def jsonWs (c : Char) : Bool :=
  c = ' ' || c = '\t' || c = '\n' || c = Char.ofNat 13

/-- Drops leading JSON whitespace. -/
def skipJsonWs (cs : List Char) : List Char := cs.dropWhile jsonWs

/-- Value of one hexadecimal digit. -/
def hexVal (c : Char) : Option Nat :=
  if '0' ≤ c ∧ c ≤ '9' then some (c.toNat - 48)
  else if 'a' ≤ c ∧ c ≤ 'f' then some (c.toNat - 87)
  else if 'A' ≤ c ∧ c ≤ 'F' then some (c.toNat - 55)
  else none

/-- Parses the body of a JSON string after the opening quote, decoding the
escape sequences `JSON.parse` accepts and rejecting raw control
characters. -/
def parseStringBody : Nat → List Char → List Char → Option (String × List Char)
  | 0, _, _ => none
  | fuel + 1, acc, cs =>
    match cs with
    | [] => none
    | c :: rest =>
      if c = '"' then some (String.mk acc.reverse, rest)
      else if c = '\\' then
        match rest with
        | [] => none
        | e :: r2 =>
          if e = '"' then parseStringBody fuel ('"' :: acc) r2
          else if e = '\\' then parseStringBody fuel ('\\' :: acc) r2
          else if e = '/' then parseStringBody fuel ('/' :: acc) r2
          else if e = 'b' then parseStringBody fuel (Char.ofNat 8 :: acc) r2
          else if e = 'f' then parseStringBody fuel (Char.ofNat 12 :: acc) r2
          else if e = 'n' then parseStringBody fuel ('\n' :: acc) r2
          else if e = 'r' then parseStringBody fuel (Char.ofNat 13 :: acc) r2
          else if e = 't' then parseStringBody fuel ('\t' :: acc) r2
          else if e = 'u' then
            match r2 with
            | h1 :: h2 :: h3 :: h4 :: r3 =>
              match hexVal h1, hexVal h2, hexVal h3, hexVal h4 with
              | some a, some b, some c2, some d =>
                parseStringBody fuel
                  (Char.ofNat (((a * 16 + b) * 16 + c2) * 16 + d) :: acc) r3
              | _, _, _, _ => none
            | _ => none
          else none
      else if c.toNat < 32 then none
      else parseStringBody fuel (c :: acc) rest

/-- Splits off a maximal run of ASCII digits. -/
def takeDigits (cs : List Char) : List Char × List Char :=
  (cs.takeWhile (·.isDigit), cs.dropWhile (·.isDigit))

/-- Parses the optional exponent part of a JSON number. -/
def numExpPart (lex : List Char) (cs : List Char) :
    Option (List Char × List Char) :=
  match cs with
  | c :: r =>
    if c = 'e' ∨ c = 'E' then
      let (sgn, r2) :=
        match r with
        | s :: rr => if s = '+' ∨ s = '-' then ([s], rr) else ([], r)
        | [] => ([], r)
      let (ds, r3) := takeDigits r2
      if ds = [] then none else some (lex ++ c :: (sgn ++ ds), r3)
    else some (lex, cs)
  | [] => some (lex, cs)

/-- Parses the optional fraction then exponent parts of a JSON number. -/
def numFracPart (lex : List Char) (cs : List Char) :
    Option (List Char × List Char) :=
  match cs with
  | c :: r =>
    if c = '.' then
      let (ds, r2) := takeDigits r
      if ds = [] then none else numExpPart (lex ++ c :: ds) r2
    else numExpPart lex cs
  | [] => numExpPart lex cs

/-- Lexes a JSON number (`-? (0 | [1-9][0-9]*) frac? exp?`), returning the
lexeme and the remaining input. -/
def parseNumberLex (cs : List Char) : Option (List Char × List Char) :=
  let (sign, cs1) :=
    match cs with
    | c :: r => if c = '-' then ([c], r) else ([], cs)
    | [] => ([], cs)
  match cs1 with
  | c :: r =>
    if c = '0' then numFracPart (sign ++ [c]) r
    else if c.isDigit then
      let (ds, r2) := takeDigits (c :: r)
      numFracPart (sign ++ ds) r2
    else none
  | [] => none

/-- Tests whether `lit` is a leading segment of `cs`. -/
def startsWithLit : List Char → List Char → Bool
  | [], _ => true
  | _ :: _, [] => false
  | l :: ls, c :: cs => l = c && startsWithLit ls cs

/-- Parsing mode of the JSON recursive-descent parser: a value, or the rest
of an object or array body (with the members parsed so far, reversed, and
whether an immediate closing bracket is allowed). -/
inductive PMode where
  | value
  | objectBody (allowClose : Bool) (acc : List (String × Json))
  | arrayBody (allowClose : Bool) (acc : List Json)

/-- The JSON recursive-descent parser behind the `JSON.parse` model, with a
fuel argument for structural termination. -/
def parseRun : Nat → PMode → List Char → Option (Json × List Char)
  | 0, _, _ => none
  | fuel + 1, .value, cs0 =>
    let cs := skipJsonWs cs0
    match cs with
    | [] => none
    | c :: rest =>
      if c = '"' then
        match parseStringBody (rest.length + 1) [] rest with
        | some (s, r) => some (.str s, r)
        | none => none
      else if c = lbrace then parseRun fuel (.objectBody true []) rest
      else if c = '[' then parseRun fuel (.arrayBody true []) rest
      else if startsWithLit "null".data cs then some (.null, cs.drop 4)
      else if startsWithLit "true".data cs then some (.bool true, cs.drop 4)
      else if startsWithLit "false".data cs then some (.bool false, cs.drop 5)
      else
        match parseNumberLex cs with
        | some (lex, r) => some (.num (String.mk lex), r)
        | none => none
  | fuel + 1, .objectBody allowClose acc, cs0 =>
    let cs := skipJsonWs cs0
    match cs with
    | [] => none
    | c :: rest =>
      if allowClose && c = rbrace then some (.obj acc.reverse, rest)
      else if c = '"' then
        match parseStringBody (rest.length + 1) [] rest with
        | some (k, r1) =>
          match skipJsonWs r1 with
          | c1 :: r3 =>
            if c1 = ':' then
              match parseRun fuel .value r3 with
              | some (v, r4) =>
                match skipJsonWs r4 with
                | c2 :: r6 =>
                  if c2 = ',' then
                    parseRun fuel (.objectBody false ((k, v) :: acc)) r6
                  else if c2 = rbrace then some (.obj ((k, v) :: acc).reverse, r6)
                  else none
                | [] => none
              | none => none
            else none
          | [] => none
        | none => none
      else none
  | fuel + 1, .arrayBody allowClose acc, cs0 =>
    let cs := skipJsonWs cs0
    match cs with
    | [] => none
    | c :: _ =>
      if allowClose && c = ']' then some (.arr acc.reverse, cs.drop 1)
      else
        match parseRun fuel .value cs with
        | some (v, r1) =>
          match skipJsonWs r1 with
          | c2 :: r2 =>
            if c2 = ',' then parseRun fuel (.arrayBody false (v :: acc)) r2
            else if c2 = ']' then some (.arr (v :: acc).reverse, r2)
            else none
          | [] => none
        | none => none

/-- The model of `JSON.parse(text)`: parse one value and require only
whitespace after it; `none` models a thrown `SyntaxError`. -/
def jsonParse (text : String) : Option Json :=
  match parseRun (2 * text.data.length + 8) .value text.data with
  | some (v, rest) => if skipJsonWs rest = [] then some v else none
  | none => none

/-- The backtick character. -/
def backtick : Char := Char.ofNat 96

/-- Whitespace matched by the JavaScript regex class used in the fence
pattern of `llm.ts` (ASCII part). -/
def jsWs (c : Char) : Bool :=
  c = ' ' || c = '\t' || c = '\n' || c = Char.ofNat 13 ||
    c = Char.ofNat 12 || c = Char.ofNat 11

/-- Tests whether the input starts with three backticks. -/
def fenceOpenAt (cs : List Char) : Bool :=
  match cs with
  | a :: b :: c :: _ => a = backtick && b = backtick && c = backtick
  | _ => false

/-- Returns the suffix right after the first three-backtick run, if any. -/
def afterFirstFence : List Char → Option (List Char)
  | [] => none
  | c :: rest =>
    if fenceOpenAt (c :: rest) then some (rest.drop 2)
    else afterFirstFence rest

/-- The lazy capture of the fence regex in `llm.ts`: the shortest run of
characters followed by an optional newline and a closing three-backtick
run. -/
def fenceCaptureLoop : Nat → List Char → List Char → Option (List Char)
  | 0, _, _ => none
  | fuel + 1, acc, t =>
    if fenceOpenAt t then some acc.reverse
    else
      match t with
      | [] => none
      | c :: r =>
        if c = '\n' && fenceOpenAt r then some acc.reverse
        else fenceCaptureLoop fuel (c :: acc) r

/-- The capture group of the markdown fence regex in `llm.ts`
(` ```(?:json)?\s*\n?([\s\S]*?)\n?``` `): first opening fence, an optional
`json` tag, optional whitespace and newline, then the lazy capture up to
the closing fence. -/
def fenceInner (text : String) : Option String :=
  match afterFirstFence text.data with
  | none => none
  | some rest =>
    let attempt : List Char → Option (List Char) := fun r =>
      let t := r.dropWhile jsWs
      fenceCaptureLoop (t.length + 1) [] t
    match (if startsWithLit "json".data rest then attempt (rest.drop 4) else none) with
    | some cap => some (String.mk cap)
    | none => (attempt rest).map String.mk

/-- The last index at which `c` occurs in `cs`. -/
def lastIdxOf (c : Char) (cs : List Char) : Option Nat :=
  (cs.reverse.findIdx? (· = c)).map fun k => cs.length - 1 - k

/-- The single candidate span of the greedy brace regex in `llm.ts`
(`(\{[\s\S]*\})`): from the first left brace to the last right brace after
it. -/
def braceSpan (cs : List Char) : Option (List Char) :=
  match cs.findIdx? (· = lbrace) with
  | none => none
  | some i =>
    let tail := cs.drop i
    match lastIdxOf rbrace tail with
    | some j => if 1 ≤ j then some (tail.take (j + 1)) else none
    | none => none

/-- The embedding of `parseJsonFromResponse` in `llm.ts`: try a direct
parse, then the markdown-fence capture, then the one greedy brace-delimited
span; return `none` when all fail. -/
def parseJsonFromResponse (text : String) : Option Json :=
  match jsonParse text with
  | some v => some v
  | none =>
    match (fenceInner text).bind jsonParse with
    | some v => some v
    | none => ((braceSpan text.data).map String.mk).bind jsonParse

/-- Decay configuration (`DecayConfigType` in `config.ts`), with the numeric
fields as reals; `parseConfig` enforces `halfLifeDays ∈ [1, 365]` and
`activeWeight ∈ [0, 1]`. -/
structure DecayConfig where
  enabled : Bool
  halfLifeDays : ℝ
  activeWeight : ℝ

/-- The embedding of `computeDecayScore` in `db.ts`:
`vectorScore * 2^(-ageDays/halfLifeDays) * (1 + activeWeight * ln(1 + activeCount))`
with `ageDays = (now - createdAt) / 86400000`, and the identity when decay
is disabled. -/
noncomputable def computeDecayScore (vectorScore createdAt activeCount : ℝ)
    (config : DecayConfig) (now : ℝ) : ℝ :=
  if !config.enabled then vectorScore
  else
    let ageDays := (now - createdAt) / (1000 * 60 * 60 * 24)
    let timeDecay := (2 : ℝ) ^ (-(ageDays / config.halfLifeDays))
    let activeBoost := 1 + config.activeWeight * Real.log (1 + activeCount)
    vectorScore * timeDecay * activeBoost

/-! Concrete sample data reused by the witness instantiations. -/

def sampleUuid : String := "00000000-0000-0000-0000-000000000000"

def sampleRow : AgentMemoryRow :=
  { id := sampleUuid, category := .patterns, abstract := "a", overview := "",
    content := "c", vector := [1], source_session := "s", active_count := 5,
    created_at := 100, updated_at := 100 }

def sampleFields : PartialFields :=
  { id := some "11111111-1111-1111-1111-111111111111"
    category := some .cases
    abstract := some "a2"
    overview := some "o2"
    content := some "c2"
    vector := some [2]
    source_session := some "x"
    active_count := some 9
    created_at := some 0
    updated_at := some 0 }

def sampleEntry : StoreEntry :=
  { category := .events, abstract := "a", overview := "", content := "c",
    vector := [1, 2], source_session := "s" }

def uuidB : String := "11111111-1111-1111-1111-111111111111"

def uuidC : String := "22222222-2222-2222-2222-222222222222"

def hitA : MemorySearchResult := { entry := sampleRow, score := 9 / 10 }

def hitB : MemorySearchResult :=
  { entry := { sampleRow with id := uuidB }, score := 85 / 100 }

def hitC : MemorySearchResult :=
  { entry := { sampleRow with id := uuidC }, score := 8 / 10 }

def mergeData2 : DedupLlmData :=
  { decision := some "MERGE", reason := some "duplicate of 2",
    match_index := some (some 2) }

def fracData : DedupLlmData :=
  { decision := some "merge", reason := some "dup",
    match_index := some (some (mkRat 3 2)) }

def missUuid : String := "33333333-3333-3333-3333-333333333333"

def sampleParams : ProcParams :=
  { dim := 1
    embed := fun _ => [1]
    dedup := fun _ =>
      { decision := "merge", reason := "dup", matchId := some missUuid }
    mergeLlm := none
    newId := sampleUuid
    now := 300 }

def profileCand : CandidateMemory :=
  { category := .profile, abstract := "pa", overview := "po", content := "pc" }

def patternsCand : CandidateMemory :=
  { category := .patterns, abstract := "a", overview := "", content := "c" }

def profileRow : AgentMemoryRow := { sampleRow with category := .profile }

noncomputable def sampleDecay : DecayConfig :=
  { enabled := true, halfLifeDays := 30, activeWeight := 1 / 2 }

/-! Helper lemmas about row lookup under delete-and-re-add. -/

theorem findRow_filter_self (table : List AgentMemoryRow) (id : String) :
    findRow (table.filter fun r => ¬ r.id = id) id = none := by
  unfold findRow
  induction table with
  | nil => rfl
  | cons a l ih =>
    by_cases h : a.id = id
    · simp [List.filter_cons, h, ih]
    · simp [List.filter_cons, List.find?_cons, h, ih]

theorem findRow_append (t1 t2 : List AgentMemoryRow) (id : String) :
    findRow (t1 ++ t2) id = (findRow t1 id).orElse fun _ => findRow t2 id := by
  unfold findRow
  induction t1 with
  | nil => rfl
  | cons a l ih =>
    by_cases h : a.id = id
    · simp [List.find?_cons, h]
    · simpa [List.find?_cons, h] using ih

theorem findRow_id {table : List AgentMemoryRow} {id : String}
    {r : AgentMemoryRow} (h : findRow table id = some r) : r.id = id := by
  have := List.find?_some h
  simpa using this

theorem findRow_incrementStep (table : List AgentMemoryRow) (id : String)
    (now : Nat) (r : AgentMemoryRow) (h : findRow table id = some r) :
    findRow (incrementStep table id now) id =
      some { r with active_count := r.active_count + 1, updated_at := now } := by
  unfold incrementStep
  rw [h, findRow_append, findRow_filter_self]
  have hid : r.id = id := findRow_id h
  simp [findRow, List.find?_cons, hid]

/-- C1: with all mutating operations serialized through the store's single
FIFO write lock (modelled as sequential application of the locked critical
sections), N `incrementActiveCount(id)` calls against the same stored id,
once all have completed, leave the record's `active_count` at its prior
value plus N — no lost updates — and leave its `id` unchanged. -/
theorem serializedIncrements_no_lost_updates (n : Nat) (nows : Nat → Nat)
    (table : List AgentMemoryRow) (id : String) (r : AgentMemoryRow)
    (hid : isUuid id = true) (hfind : findRow table id = some r) :
    ∃ table', serializedIncrements n nows table id = .ok table' ∧
      ∃ r', findRow table' id = some r' ∧
        r'.id = r.id ∧ r'.active_count = r.active_count + n := by
  induction n generalizing table r with
  | zero => exact ⟨table, rfl, r, hfind, rfl, rfl⟩
  | succ k ih =>
    have hfind' := findRow_incrementStep table id (nows k) r hfind
    obtain ⟨t', h1, r', h2, h3, h4⟩ := ih (incrementStep table id (nows k)) _ hfind'
    refine ⟨t', ?_, r', h2, by simpa using h3, by simp at h4; omega⟩
    simp [serializedIncrements, incrementActiveCount, hid, Except.bind, h1]

/-- Witness for C1 at N = 20 on a one-row store. -/
theorem serializedIncrements_no_lost_updates_witness :
    ∃ table', serializedIncrements 20 (fun _ => 200) [sampleRow] sampleUuid =
        .ok table' ∧
      ∃ r', findRow table' sampleUuid = some r' ∧
        r'.id = sampleRow.id ∧ r'.active_count = sampleRow.active_count + 20 :=
  serializedIncrements_no_lost_updates 20 (fun _ => 200) [sampleRow] sampleUuid
    sampleRow (by decide) (by decide)

/-- C2: `update(id, fields)` never changes the stored `id`, `created_at` or
`source_session` even when `fields` supplies values for them, applies the
other supplied field changes (abstract, overview, content, vector) in the
same call, and bumps `updated_at` to now; an update whose id is not present
in the store changes nothing. -/
theorem updateStep_immutable_fields (table : List AgentMemoryRow) (id : String)
    (fields : PartialFields) (now : Nat) :
    (∀ r, findRow table id = some r →
      findRow (updateStep table id fields now) id = some
        { id := r.id
          category := fields.category.getD r.category
          abstract := fields.abstract.getD r.abstract
          overview := fields.overview.getD r.overview
          content := fields.content.getD r.content
          vector := fields.vector.getD r.vector
          source_session := r.source_session
          active_count := fields.active_count.getD r.active_count
          created_at := r.created_at
          updated_at := now }) ∧
    (findRow table id = none → updateStep table id fields now = table) := by
  constructor
  · intro r h
    unfold updateStep
    rw [h, findRow_append, findRow_filter_self]
    have hid : r.id = id := findRow_id h
    simp [findRow, List.find?_cons, hid]
  · intro h
    unfold updateStep
    rw [h]

/-- Witness for C2: an update supplying every field, including the immutable
ones, against a one-row store, and an update against an empty store. -/
theorem updateStep_immutable_fields_witness :
    findRow (updateStep [sampleRow] sampleUuid sampleFields 777) sampleUuid =
      some
        { id := sampleRow.id, category := .cases, abstract := "a2",
          overview := "o2", content := "c2", vector := [2],
          source_session := sampleRow.source_session, active_count := 9,
          created_at := sampleRow.created_at, updated_at := 777 } ∧
    updateStep [] sampleUuid sampleFields 777 = [] :=
  ⟨by
    simpa using
      (updateStep_immutable_fields [sampleRow] sampleUuid sampleFields 777).1
        sampleRow (by decide),
   (updateStep_immutable_fields [] sampleUuid sampleFields 777).2 (by decide)⟩

/-- C4: `store` with a vector whose length differs from the configured
dimension always fails with the dimension-mismatch error and persists no
row (the error carries no table: the table argument is returned only on
success); with a matching length it appends and returns a record carrying
the freshly drawn id, `active_count = 0`, and
`created_at = updated_at = now`. -/
theorem dbStore_dimension_enforcement (dim : Nat) (table : List AgentMemoryRow)
    (entry : StoreEntry) (newId : String) (now : Nat) :
    (entry.vector.length ≠ dim →
      dbStore dim table entry newId now =
        .error ("epro-memory: vector dimension mismatch — got " ++
          toString entry.vector.length ++ "-dim vector but DB expects " ++
          toString dim)) ∧
    (entry.vector.length = dim →
      dbStore dim table entry newId now =
        .ok (table ++
          [{ id := newId, category := entry.category, abstract := entry.abstract,
             overview := entry.overview, content := entry.content,
             vector := entry.vector, source_session := entry.source_session,
             active_count := 0, created_at := now, updated_at := now }],
          { id := newId, category := entry.category, abstract := entry.abstract,
            overview := entry.overview, content := entry.content,
            vector := entry.vector, source_session := entry.source_session,
            active_count := 0, created_at := now, updated_at := now })) := by
  constructor <;> intro h <;> simp [dbStore, h]

/-- Witness for C4: a 2-dim vector against a 3-dim store fails; against a
2-dim store it persists with the expected fresh fields. -/
theorem dbStore_dimension_enforcement_witness :
    dbStore 3 [] sampleEntry sampleUuid 50 =
      .error ("epro-memory: vector dimension mismatch — got " ++
        toString sampleEntry.vector.length ++ "-dim vector but DB expects " ++
        toString 3) ∧
    dbStore 2 [] sampleEntry sampleUuid 50 =
      .ok ([{ id := sampleUuid, category := sampleEntry.category,
              abstract := sampleEntry.abstract, overview := sampleEntry.overview,
              content := sampleEntry.content, vector := sampleEntry.vector,
              source_session := sampleEntry.source_session, active_count := 0,
              created_at := 50, updated_at := 50 }],
            { id := sampleUuid, category := sampleEntry.category,
              abstract := sampleEntry.abstract, overview := sampleEntry.overview,
              content := sampleEntry.content, vector := sampleEntry.vector,
              source_session := sampleEntry.source_session, active_count := 0,
              created_at := 50, updated_at := 50 }) :=
  ⟨(dbStore_dimension_enforcement 3 [] sampleEntry sampleUuid 50).1 (by decide),
   by
    simpa using
      (dbStore_dimension_enforcement 2 [] sampleEntry sampleUuid 50).2 (by decide)⟩

/-! Deduplicator lemmas. -/

theorem take3_first_isSome (similar : List MemorySearchResult)
    (hne : similar ≠ []) : ((similar.take 3)[0]?).isSome = true := by
  cases similar with
  | nil => exact absurd rfl hne
  | cons a l => simp

theorem resolveMatchEntry_isSome (similar : List MemorySearchResult)
    (hne : similar ≠ []) (mi : Option (Option Rat))
    (hint : ∀ i : Rat, mi = some (some i) → 1 ≤ i →
      i ≤ ((similar.take 3).length : Rat) → i.den = 1) :
    (resolveMatchEntry (similar.take 3) mi).isSome = true := by
  match mi with
  | none => exact take3_first_isSome similar hne
  | some none => exact take3_first_isSome similar hne
  | some (some i) =>
    simp only [resolveMatchEntry]
    by_cases h : 1 ≤ i ∧ i ≤ ((similar.take 3).length : Rat)
    · rw [if_pos h]
      have hden : i.den = 1 := hint i rfl h.1 h.2
      have hnum : (i.num : Rat) = i := (Rat.den_eq_one_iff i).mp hden
      have hsub : i - 1 = ((i.num - 1 : Int) : Rat) := by
        rw [Int.cast_sub, Int.cast_one, hnum]
      have hn1 : (1 : Int) ≤ i.num := by
        have := h.1
        rw [← hnum] at this
        exact_mod_cast this
      have hn2 : i.num ≤ ((similar.take 3).length : Int) := by
        have := h.2
        rw [← hnum] at this
        exact_mod_cast this
      unfold jsIndex
      rw [hsub]
      rw [if_pos ⟨Rat.den_intCast _, by rw [Rat.num_intCast]; omega⟩]
      have hlt : ((i.num - 1 : Int) : Rat).num.toNat < (similar.take 3).length := by
        rw [Rat.num_intCast]
        omega
      rw [List.getElem?_eq_getElem hlt]
      rfl
    · rw [if_neg h]
      exact take3_first_isSome similar hne

theorem llmDecision_merge_shape (similar : List MemorySearchResult)
    (data : DedupLlmData)
    (hmerge : (data.decision.map jsToLowerCase).getD "create" = "merge") :
    llmDecision similar (.returned (some data)) =
      { decision := "merge", reason := data.reason.getD "",
        matchId :=
          (resolveMatchEntry (similar.take 3) data.match_index).map
            (·.entry.id) } := by
  simp only [llmDecision]
  rw [hmerge]
  simp

/-- C6 counterexample: with three hits and a parsed arbitration response
`merge` with the fractional in-range `match_index` 1.5, the code's range
check `1 <= idx <= 3` passes but `topSimilar[0.5]` is `undefined`, so the
result has decision merge and no matchId — refuting the claim's "matchId
is present in the result if and only if the decision is merge" at this
concrete input. -/
theorem llmDecision_frac_index_counterexample :
    ¬ (((llmDecision [hitA, hitB, hitC]
          (.returned (some fracData))).matchId.isSome = true) ↔
        ((llmDecision [hitA, hitB, hitC]
          (.returned (some fracData))).decision = "merge")) := by
  have hshape := llmDecision_merge_shape [hitA, hitB, hitC] fracData (by decide)
  have hdec : (llmDecision [hitA, hitB, hitC]
      (.returned (some fracData))).decision = "merge" := by
    rw [hshape]
  have hm : (llmDecision [hitA, hitB, hitC]
      (.returned (some fracData))).matchId = none := by
    rw [hshape]
    have hcond : (1 : Rat) ≤ mkRat 3 2 ∧
        mkRat 3 2 ≤ (((List.take 3 [hitA, hitB, hitC]).length : Nat) : Rat) := by
      show (1 : Rat) ≤ mkRat 3 2 ∧ mkRat 3 2 ≤ ((3 : Nat) : Rat)
      rw [Rat.mkRat_eq_div]
      constructor <;> norm_num
    have hhalf : mkRat 3 2 - 1 = mkRat 1 2 := by
      rw [Rat.mkRat_eq_div, Rat.mkRat_eq_div]
      norm_num
    have hdnot : ¬ ((mkRat 3 2 - 1).den = 1 ∧ 0 ≤ (mkRat 3 2 - 1).num) := by
      rw [hhalf]
      rintro ⟨hd, -⟩
      exact absurd hd (by decide)
    show Option.map (fun x => x.entry.id)
      (resolveMatchEntry (List.take 3 [hitA, hitB, hitC])
        fracData.match_index) = none
    show Option.map (fun x => x.entry.id)
      (resolveMatchEntry (List.take 3 [hitA, hitB, hitC])
        (some (some (mkRat 3 2)))) = none
    simp only [resolveMatchEntry]
    rw [if_pos hcond]
    unfold jsIndex
    rw [if_neg hdnot]
    rfl
  intro hiff
  have hsome := hiff.mpr hdec
  rw [hm] at hsome
  exact absurd hsome (by decide)

/-- C6 (amended): when the arbitration response parses with decision merge
(after lowercasing) and the pre-filter produced at least one hit, the
resolved matchId is the id of the hit at the 1-based `match_index` into
the top-3 list when that index is an integer in range; it is the id of the
first (best-scoring) hit when the index is absent, not a number, or out of
range (a fractional in-range index instead indexes to `undefined`, leaving
a merge result with no matchId); and over every arbitration outcome whose
in-range `match_index`, if any, is an integer, matchId is present in the
result if and only if the decision is merge. -/
theorem llmDecision_match_index_resolution (similar : List MemorySearchResult)
    (data : DedupLlmData) (hne : similar ≠ [])
    (hmerge : (data.decision.map jsToLowerCase).getD "create" = "merge") :
    ((llmDecision similar (.returned (some data))).decision = "merge") ∧
    (∀ i : Rat, data.match_index = some (some i) → i.den = 1 → 1 ≤ i →
      i ≤ ((similar.take 3).length : Rat) →
      (llmDecision similar (.returned (some data))).matchId =
        ((similar.take 3)[(i - 1).num.toNat]?).map (·.entry.id)) ∧
    (∀ i : Rat, data.match_index = some (some i) → i.den ≠ 1 → 1 ≤ i →
      i ≤ ((similar.take 3).length : Rat) →
      (llmDecision similar (.returned (some data))).decision = "merge" ∧
      (llmDecision similar (.returned (some data))).matchId = none) ∧
    (∀ i : Rat, data.match_index = some (some i) →
      (i < 1 ∨ ((similar.take 3).length : Rat) < i) →
      (llmDecision similar (.returned (some data))).matchId =
        ((similar.take 3)[0]?).map (·.entry.id)) ∧
    (data.match_index = none →
      (llmDecision similar (.returned (some data))).matchId =
        ((similar.take 3)[0]?).map (·.entry.id)) ∧
    (data.match_index = some none →
      (llmDecision similar (.returned (some data))).matchId =
        ((similar.take 3)[0]?).map (·.entry.id)) ∧
    (∀ outcome : LlmOutcome,
      (∀ d i, outcome = .returned (some d) → d.match_index = some (some i) →
        1 ≤ i → i ≤ ((similar.take 3).length : Rat) → i.den = 1) →
      ((llmDecision similar outcome).matchId.isSome = true ↔
        (llmDecision similar outcome).decision = "merge")) := by
  refine ⟨?_, ?_, ?_, ?_, ?_, ?_, ?_⟩
  · rw [llmDecision_merge_shape similar data hmerge]
  · intro i hmi hden h1 h2
    rw [llmDecision_merge_shape similar data hmerge, hmi]
    simp only [resolveMatchEntry]
    rw [if_pos ⟨h1, h2⟩]
    have hnum : (i.num : Rat) = i := (Rat.den_eq_one_iff i).mp hden
    have hsub : i - 1 = ((i.num - 1 : Int) : Rat) := by
      rw [Int.cast_sub, Int.cast_one, hnum]
    have hn1 : (1 : Int) ≤ i.num := by
      have := h1
      rw [← hnum] at this
      exact_mod_cast this
    rw [hsub]
    unfold jsIndex
    rw [if_pos ⟨Rat.den_intCast _, by rw [Rat.num_intCast]; omega⟩]
  · intro i hmi hden h1 h2
    have hd1 : ¬ ((i - 1).den = 1 ∧ 0 ≤ (i - 1).num) := by
      rintro ⟨hd, -⟩
      apply hden
      have hrep : ((i - 1).num : Rat) = i - 1 := (Rat.den_eq_one_iff (i - 1)).mp hd
      have hi : i = (((i - 1).num + 1 : Int) : Rat) := by
        rw [Int.cast_add, Int.cast_one, hrep]
        ring
      rw [hi]
      exact Rat.den_intCast _
    constructor
    · rw [llmDecision_merge_shape similar data hmerge]
    · rw [llmDecision_merge_shape similar data hmerge, hmi]
      simp only [resolveMatchEntry]
      rw [if_pos ⟨h1, h2⟩]
      unfold jsIndex
      rw [if_neg hd1]
      rfl
  · intro i hmi hout
    rw [llmDecision_merge_shape similar data hmerge, hmi]
    simp only [resolveMatchEntry]
    rw [if_neg (show ¬ (1 ≤ i ∧ i ≤ ((similar.take 3).length : Rat)) by
      rcases hout with hlo | hhi
      · exact fun hc => absurd hc.1 (not_le.mpr hlo)
      · exact fun hc => absurd hc.2 (not_le.mpr hhi))]
  · intro hmi
    rw [llmDecision_merge_shape similar data hmerge, hmi]
    simp [resolveMatchEntry]
  · intro hmi
    rw [llmDecision_merge_shape similar data hmerge, hmi]
    simp [resolveMatchEntry]
  · intro outcome hprov
    cases outcome with
    | threw err => simp [llmDecision]
    | returned d =>
      cases d with
      | none => simp [llmDecision]
      | some dd =>
        have hint : ∀ i : Rat, dd.match_index = some (some i) → 1 ≤ i →
            i ≤ ((similar.take 3).length : Rat) → i.den = 1 :=
          fun i hmi => hprov dd i rfl hmi
        simp only [llmDecision]
        by_cases hval : (dd.decision.map jsToLowerCase).getD "create" = "create" ∨
            (dd.decision.map jsToLowerCase).getD "create" = "merge" ∨
            (dd.decision.map jsToLowerCase).getD "create" = "skip"
        · rw [if_neg (not_not_intro hval)]
          by_cases hm : (dd.decision.map jsToLowerCase).getD "create" = "merge"
          · simp [hm, resolveMatchEntry_isSome similar hne dd.match_index hint]
          · simp [if_neg hm, hm]
        · rw [if_pos hval]
          simp

/-- Witness for C6: three hits and an arbitration response `MERGE` with
the integer `match_index: 2` resolve to the second-ranked hit's id. -/
theorem llmDecision_match_index_resolution_witness :
    (llmDecision [hitA, hitB, hitC]
      (.returned (some mergeData2))).matchId = some uuidB := by
  have h :=
    (llmDecision_match_index_resolution [hitA, hitB, hitC] mergeData2
      (List.cons_ne_nil _ _) (by decide)).2.1 2 rfl (by simp) one_le_two
      (by norm_num)
  rw [h]
  have hidx : ((2 : Rat) - 1) = 1 := by norm_num
  rw [hidx]
  norm_num [hitB, uuidB]

/-- C5: with at least one pre-filter hit, a thrown arbitration call or an
unparseable arbitration response makes `deduplicate` return decision
create with a reason recording the failure; the arbitration stage is
embedded as a total function (the catch handler turns the thrown error
into the default result), so `deduplicate` never throws from it. -/
theorem deduplicate_default_safety (similar : List MemorySearchResult)
    (hne : similar ≠ []) :
    (∀ err, deduplicate similar (.threw err) =
      ({ decision := "create", reason := "LLM failed: " ++ err,
         matchId := none }, true)) ∧
    deduplicate similar (.returned none) =
      ({ decision := "create", reason := "LLM response unparseable",
         matchId := none }, true) := by
  have hlen : ¬ similar.length = 0 := by
    cases similar with
    | nil => exact absurd rfl hne
    | cons a l => simp
  constructor
  · intro err
    simp [deduplicate, hlen, llmDecision]
  · simp [deduplicate, hlen, llmDecision]

/-- Witness for C5 on a one-hit pre-filter result. -/
theorem deduplicate_default_safety_witness :
    deduplicate [hitA] (.threw "boom") =
      ({ decision := "create", reason := "LLM failed: boom",
         matchId := none }, true) ∧
    deduplicate [hitA] (.returned none) =
      ({ decision := "create", reason := "LLM response unparseable",
         matchId := none }, true) :=
  ⟨(deduplicate_default_safety [hitA] (List.cons_ne_nil _ _)).1 "boom",
   (deduplicate_default_safety [hitA] (List.cons_ne_nil _ _)).2⟩

/-- C7 counterexample: with zero pre-filter hits the returned reason is the
code's "No similar memories found", not the claim's exact string
"no similar memories found" (the capitalization differs). -/
theorem deduplicate_zero_hits_reason_counterexample :
    ¬ ((deduplicate [] (LlmOutcome.returned none)).1.reason =
      "no similar memories found") := by
  decide

/-- C7 (amended): whenever the category-restricted similarity search
returns zero hits, `deduplicate` returns decision create with reason
"No similar memories found" (the code capitalizes the first word) and no
matchId, without invoking the arbitration capability. -/
theorem deduplicate_zero_hits_short_circuit (outcome : LlmOutcome) :
    deduplicate [] outcome =
      ({ decision := "create", reason := "No similar memories found",
         matchId := none }, false) := rfl

/-! Extraction orchestrator lemmas. -/

/-- C8: a candidate whose category is the always-merge category (profile)
never invokes the Decision Engine (the invocation flag is false and the
outcome is exactly the profile-merge path); with zero stored profile
records the candidate is stored as a new record, and with one or more it
is merged into the first existing profile record returned for that
category. -/
theorem processCandidate_profile_policy (p : ProcParams)
    (table : List AgentMemoryRow) (candidate : CandidateMemory)
    (sessionKey : String) (stats : ExtractionStats)
    (hcat : candidate.category = .profile) :
    (processCandidate p table candidate sessionKey stats =
      (handleProfileMerge p table candidate sessionKey).map fun t =>
        (t, { stats with merged := stats.merged + 1 }, false)) ∧
    (findByCategory table .profile = [] →
      (p.embed (candidate.abstract ++ " " ++ candidate.content)).length = p.dim →
      processCandidate p table candidate sessionKey stats =
        .ok (table ++
          [{ id := p.newId, category := .profile,
             abstract := candidate.abstract, overview := candidate.overview,
             content := candidate.content,
             vector := p.embed (candidate.abstract ++ " " ++ candidate.content),
             source_session := sessionKey, active_count := 0,
             created_at := p.now, updated_at := p.now }],
          { stats with merged := stats.merged + 1 }, false)) ∧
    (∀ target rest, findByCategory table .profile = target :: rest →
      isUuid target.id = true →
      processCandidate p table candidate sessionKey stats =
        .ok (updateStep table target.id
          { abstract := some (mergeMemory
              { abstract := target.abstract, overview := target.overview,
                content := target.content } candidate p.mergeLlm).abstract
            overview := some (mergeMemory
              { abstract := target.abstract, overview := target.overview,
                content := target.content } candidate p.mergeLlm).overview
            content := some (mergeMemory
              { abstract := target.abstract, overview := target.overview,
                content := target.content } candidate p.mergeLlm).content
            vector := some (p.embed ((mergeMemory
              { abstract := target.abstract, overview := target.overview,
                content := target.content } candidate p.mergeLlm).abstract ++
              " " ++ (mergeMemory
              { abstract := target.abstract, overview := target.overview,
                content := target.content } candidate p.mergeLlm).content)) }
          p.now,
          { stats with merged := stats.merged + 1 }, false)) := by
  refine ⟨?_, ?_, ?_⟩
  · simp [processCandidate, hcat, alwaysMergeCategory]
  · intro h0 hdim
    simp [processCandidate, hcat, alwaysMergeCategory, handleProfileMerge, h0,
      dbStore, hdim, Except.map]
  · intro target rest hfc hu
    simp [processCandidate, hcat, alwaysMergeCategory, handleProfileMerge, hfc,
      dbUpdate, hu, Except.map]

/-- C10: a candidate in a merge-supported category whose dedup result is
merge with a matchId matching no stored record leaves the store unchanged
(the merge handler returns silently on a not-found target) while still
incrementing the merged counter, so the batch statistics report it as
merged. -/
theorem processCandidate_merge_miss_counts_merged (p : ProcParams)
    (table : List AgentMemoryRow) (candidate : CandidateMemory)
    (sessionKey : String) (stats : ExtractionStats) (m : String)
    (hsup : mergeSupportedCategory candidate.category = true)
    (hdec : (p.dedup (p.embed (candidate.abstract ++ " " ++
      candidate.content))).decision = "merge")
    (hmid : (p.dedup (p.embed (candidate.abstract ++ " " ++
      candidate.content))).matchId = some m)
    (hu : isUuid m = true)
    (hmiss : findRow table m = none) :
    processCandidate p table candidate sessionKey stats =
      .ok (table, { stats with merged := stats.merged + 1 }, true) := by
  have hprof : alwaysMergeCategory candidate.category = false := by
    revert hsup
    cases candidate.category <;>
      simp [alwaysMergeCategory, mergeSupportedCategory]
  have hne : ¬ m = "" := by
    intro he
    rw [he] at hu
    exact absurd hu (by decide)
  simp [processCandidate, hprof, hdec, hmid, hsup, optTruthy, hne, handleMerge,
    getById, hu, hmiss, Except.bind, Except.map]

/-- Witness for C8: a profile candidate against an empty store is stored as
new; against a store holding one profile record it is merged into that
record via update. -/
theorem processCandidate_profile_policy_witness :
    processCandidate sampleParams [] profileCand "sess" ⟨0, 0, 0⟩ =
      .ok ([{ id := sampleUuid, category := .profile, abstract := "pa",
              overview := "po", content := "pc", vector := [1],
              source_session := "sess", active_count := 0, created_at := 300,
              updated_at := 300 }], ⟨0, 1, 0⟩, false) ∧
    processCandidate sampleParams [profileRow] profileCand "sess" ⟨0, 0, 0⟩ =
      .ok (updateStep [profileRow] profileRow.id
        { abstract := some "pa", overview := some "po", content := some "pc",
          vector := some [1] } 300, ⟨0, 1, 0⟩, false) := by
  constructor
  · exact (processCandidate_profile_policy sampleParams [] profileCand "sess"
      ⟨0, 0, 0⟩ rfl).2.1 rfl rfl
  · exact (processCandidate_profile_policy sampleParams [profileRow] profileCand
      "sess" ⟨0, 0, 0⟩ rfl).2.2 profileRow [] rfl (by decide)

/-- Witness for C10: a patterns candidate whose dedup result is merge with a
matchId absent from the store leaves the table unchanged and counts as
merged. -/
theorem processCandidate_merge_miss_counts_merged_witness :
    processCandidate sampleParams [] patternsCand "sess" ⟨0, 0, 0⟩ =
      .ok ([], ⟨0, 1, 0⟩, true) :=
  processCandidate_merge_miss_counts_merged sampleParams [] patternsCand "sess"
    ⟨0, 0, 0⟩ missUuid rfl rfl rfl (by decide) rfl

/-- C3: the JSON extraction behind `completeJson` tries only a single greedy
brace-delimited span. On a text whose first brace block is not valid JSON
it returns null even though a later balanced, valid JSON object exists in
the same text (second conjunct) — the successive-candidate, left-to-right
behavior the claim describes and the repository's own parser tests assert
("skips invalid brace block and finds later valid JSON") does not hold of
this code. -/
theorem parseJsonFromResponse_single_span_only :
    parseJsonFromResponse "prefix \x7bnot json\x7d then \x7b\"ok\": 1\x7d" =
      none ∧
    (jsonParse "\x7b\"ok\": 1\x7d").isSome = true := ⟨rfl, rfl⟩

/-! Decay monotonicity. -/

theorem computeDecayScore_enabled (vs c a : ℝ) (config : DecayConfig)
    (now : ℝ) (hen : config.enabled = true) :
    computeDecayScore vs c a config now =
      vs * (2 : ℝ) ^ (-((now - c) / (1000 * 60 * 60 * 24) /
        config.halfLifeDays)) *
        (1 + config.activeWeight * Real.log (1 + a)) := by
  simp [computeDecayScore, hen]

/-- C9: with decay enabled and `halfLifeDays`, `activeWeight` in their
configured ranges, for a fixed positive vectorScore and fixed activeCount
the decay score strictly decreases as the record's age in days increases
(an earlier `created_at` gives a strictly smaller score), and for a fixed
age it is non-decreasing in activeCount. -/
theorem computeDecayScore_monotone (config : DecayConfig) (now vs : ℝ)
    (hen : config.enabled = true)
    (hh1 : 1 ≤ config.halfLifeDays) (hh2 : config.halfLifeDays ≤ 365)
    (hw0 : 0 ≤ config.activeWeight) (hw1 : config.activeWeight ≤ 1)
    (hvs : 0 < vs) :
    (∀ a c1 c2, 0 ≤ a → c2 < c1 →
      computeDecayScore vs c2 a config now <
        computeDecayScore vs c1 a config now) ∧
    (∀ c a1 a2, 0 ≤ a1 → a1 ≤ a2 →
      computeDecayScore vs c a1 config now ≤
        computeDecayScore vs c a2 config now) := by
  have hh0 : (0 : ℝ) < config.halfLifeDays := lt_of_lt_of_le one_pos hh1
  constructor
  · intro a c1 c2 ha hc
    rw [computeDecayScore_enabled vs c1 a config now hen,
        computeDecayScore_enabled vs c2 a config now hen]
    have hB : 0 < 1 + config.activeWeight * Real.log (1 + a) := by
      have hlog : 0 ≤ Real.log (1 + a) := Real.log_nonneg (by linarith)
      have hwl : 0 ≤ config.activeWeight * Real.log (1 + a) :=
        mul_nonneg hw0 hlog
      linarith
    have hages : (now - c1) / (1000 * 60 * 60 * 24) / config.halfLifeDays <
        (now - c2) / (1000 * 60 * 60 * 24) / config.halfLifeDays := by
      have h1 : now - c1 < now - c2 := by linarith
      gcongr
    have hlt : (2 : ℝ) ^
        (-((now - c2) / (1000 * 60 * 60 * 24) / config.halfLifeDays)) <
        (2 : ℝ) ^
        (-((now - c1) / (1000 * 60 * 60 * 24) / config.halfLifeDays)) :=
      Real.rpow_lt_rpow_of_exponent_lt one_lt_two (by linarith)
    exact mul_lt_mul_of_pos_right (mul_lt_mul_of_pos_left hlt hvs) hB
  · intro c a1 a2 ha1 ha2
    rw [computeDecayScore_enabled vs c a1 config now hen,
        computeDecayScore_enabled vs c a2 config now hen]
    have hlog : Real.log (1 + a1) ≤ Real.log (1 + a2) :=
      Real.log_le_log (by linarith) (by linarith)
    have hB : 1 + config.activeWeight * Real.log (1 + a1) ≤
        1 + config.activeWeight * Real.log (1 + a2) := by
      have hm := mul_le_mul_of_nonneg_left hlog hw0
      linarith
    have hd : 0 ≤ vs * (2 : ℝ) ^
        (-((now - c) / (1000 * 60 * 60 * 24) / config.halfLifeDays)) := by
      positivity
    exact mul_le_mul_of_nonneg_left hB hd

/-- Witness for C9: one day of extra age strictly lowers the score; five
extra activations do not lower it. -/
theorem computeDecayScore_monotone_witness :
    computeDecayScore 1 0 0 sampleDecay 86400000 <
      computeDecayScore 1 86400000 0 sampleDecay 86400000 ∧
    computeDecayScore 1 0 0 sampleDecay 86400000 ≤
      computeDecayScore 1 0 5 sampleDecay 86400000 :=
  ⟨(computeDecayScore_monotone sampleDecay 86400000 1 rfl
      (by norm_num [sampleDecay]) (by norm_num [sampleDecay])
      (by norm_num [sampleDecay]) (by norm_num [sampleDecay]) one_pos).1
      0 86400000 0 le_rfl (by norm_num),
   (computeDecayScore_monotone sampleDecay 86400000 1 rfl
      (by norm_num [sampleDecay]) (by norm_num [sampleDecay])
      (by norm_num [sampleDecay]) (by norm_num [sampleDecay]) one_pos).2
      0 0 5 le_rfl (by norm_num)⟩

end EproMemory
